import Mathlib

/-!
# Verification of `src/models/hed_rnn.py` (DeepEncoderDecoderNetwork)

Shallow embedding of the network-assembly class `DeepEncoderDecoderNetwork`.
The class builds a Theano computation graph: it instantiates layer objects
from string tags, wires each layer's symbolic input to the previous layer's
output (with special encoder/decoder concatenation logic), selects a loss
expression, and builds training/validation/prediction functions.

The embedding mirrors the *graph construction* performed by the Python code:
symbolic Theano expressions become an inductive AST (`SymExpr`), layer
objects become records storing the class that was instantiated together with
the constructor arguments that the claims talk about (input expression and
declared input width), and Python failure modes (`assert`, `sys.exit(1)`,
`IndexError`, `AttributeError`) become an `Except` error type.  The numeric
internals of the layer classes, of `T.grad` and of the external ADAM/RPROP
modules live outside this file's source and outside every claim; they stay
opaque.  The SGD update dictionary built by `build_finetune_functions` is
embedded together with its simultaneous-assignment semantics (each right
hand side is evaluated in the pre-step state, as `theano.function` does),
with each shared parameter array modelled elementwise by a single rational.
-/

namespace HedRnn

/-- Decidable equality for results of fallible Python code. -/
instance instExceptDecEq {ε α : Type} [DecidableEq ε] [DecidableEq α] :
    DecidableEq (Except ε α) := fun a b =>
  match a, b with
  | .error u, .error v =>
    if h : u = v then isTrue (h ▸ rfl) else isFalse (by simp [h])
  | .error _, .ok _ => isFalse (by simp)
  | .ok _, .error _ => isFalse (by simp)
  | .ok u, .ok v =>
    if h : u = v then isTrue (h ▸ rfl) else isFalse (by simp [h])

/-- Python `str.lower()` on the ASCII tag strings this module handles
(character-by-character lowering). -/
def strLower (s : String) : String := ⟨s.data.map Char.toLower⟩

/-- Python `str.upper()` on the ASCII tag strings this module handles. -/
def strUpper (s : String) : String := ⟨s.data.map Char.toUpper⟩

/-- Python `s[0:-1]`: drop the last character. -/
def strDropLast (s : String) : String := ⟨s.data.dropLast⟩

/-- Symbolic Theano expressions, as constructed by `DeepEncoderDecoderNetwork.__init__`.
`x`, `y`, `d`, `f` are the input placeholders created at lines 67-76;
`layerOut i` is `self.rnn_layers[i].output`; `finalOut` is the output of a
separately constructed final layer; the remaining constructors are the graph
nodes built in the encoder branch (lines 103-123): `a.size // k`, `a + b`,
vector slices `v[lo:hi]`, `T.sum`, matrix slices `m[0:r, cLo:cHi]`,
`DistributedSequenceEncoder(rng, data, dur).encoded_output` and
`T.concatenate((a, b), axis=1)`. -/
inductive SymExpr where
  | x : SymExpr
  | y : SymExpr
  | d : SymExpr
  | f : SymExpr
  | layerOut : Nat → SymExpr
  | finalOut : SymExpr
  | lit : Int → SymExpr
  | addE : SymExpr → SymExpr → SymExpr
  | sizeDiv : SymExpr → Int → SymExpr
  | sliceVec : SymExpr → SymExpr → SymExpr → SymExpr
  | sumE : SymExpr → SymExpr
  | sliceMat : SymExpr → SymExpr → Nat → Nat → SymExpr
  | encode : SymExpr → SymExpr → SymExpr
  | concat : SymExpr → SymExpr → SymExpr
deriving DecidableEq

instance : Inhabited SymExpr := ⟨SymExpr.x⟩

/-- Python-level failure modes of the embedded code: the `assert` at line 59,
`sys.exit(1)` at lines 158/179/285, out-of-range (non-negative) list
indexing, and attribute access on `self.d`/`self.f` when they were never
created (`network_type != "S2S"`). -/
inductive PyErr where
  | assertionError : PyErr
  | sysExit : Nat → PyErr
  | indexError : PyErr
  | attributeError : PyErr
deriving DecidableEq

/-- The layer classes instantiated by `__init__` (lines 126-158 for hidden
layers, lines 167-179 for the final layer).  `GeneralLayer` records the
`activation` string argument it receives. -/
inductive LayerClass where
  | GeneralLayer : String → LayerClass
  | SigmoidLayer_LHUC : LayerClass
  | SimplifiedLstm : LayerClass
  | SimplifiedLstmDecoder : LayerClass
  | SimplifiedGRU : LayerClass
  | GatedRecurrentUnit : LayerClass
  | VanillaLstm : LayerClass
  | VanillaLstmDecoder : LayerClass
  | BidirectionSLstm : LayerClass
  | BidirectionLstm : LayerClass
  | VanillaRNN : LayerClass
  | VanillaRNNDecoder : LayerClass
  | VanillaLstm_LHUC : LayerClass
  | LinearLayer : LayerClass
  | RecurrentOutputLayer : LayerClass
deriving DecidableEq

/-- A constructed layer object: the class that was instantiated, the symbolic
`layer_input` argument, the declared `input_size` argument (a Python int,
hence `Int`) and the layer's own size argument.  The remaining constructor
arguments (rng, dropout rate, `is_train`, the decoders' extra `self.n_out`)
are not inspected by any claim and are not recorded. -/
structure Layer where
  cls : LayerClass
  input : SymExpr
  inputSize : Int
  outSize : Nat
deriving DecidableEq

instance : Inhabited Layer := ⟨⟨LayerClass.LinearLayer, SymExpr.x, 0, 0⟩⟩

/-- `self.list_of_activations` (line 61). -/
def list_of_activations : List String := ["TANH", "SIGMOID", "SOFTMAX", "RELU", "RESU"]

/-- `BLSTM_variants` (line 63). -/
def BLSTM_variants : List String := ["BLSTM", "BSLSTM", "BLSTME", "BSLSTME"]

/-- `Encoder_variants` (line 64). -/
def Encoder_variants : List String := ["RNNE", "LSTME", "BLSTME", "SLSTME", "TANHE"]

/-- `Decoder_variants` (line 65). -/
def Decoder_variants : List String := ["RNND", "LSTMD", "SLSTMD"]

/-- The constructor arguments of `DeepEncoderDecoderNetwork.__init__` that the
claims depend on (line 30); defaults are the Python defaults.  `L1_reg`,
`L2_reg` and `dropout_rate` are stored but never inspected by a claim. -/
structure Config where
  n_in : Nat
  hidden_layer_size : List Nat
  n_out : Nat
  hidden_layer_type : List String
  output_type : String := "LINEAR"
  network_type : String := "S2S"
  ed_type : String := "HED"
  optimizer : String := "sgd"
  MLU_div_lengths : List Nat := []
  loss_function : String := "MMSE"
  rnn_batch_training : Bool := false
deriving DecidableEq

/-- The tag read by the encoder check `hidden_layer_type[i-1]` at line 104.
For `i = 0` Python's negative indexing makes this `hidden_layer_type[-1]`,
the LAST entry of the list. -/
def prevTag (cfg : Config) (i : Nat) : String :=
  if i = 0 then cfg.hidden_layer_type.getLastD ""
  else cfg.hidden_layer_type.getD (i-1) ""

/-- `input_size` as computed at lines 91-96: `n_in` for the first layer,
otherwise the previous layer's size, doubled when the previous layer's tag
is a bidirectional variant. -/
def base_input_size (cfg : Config) (i : Nat) : Int :=
  if i = 0 then (cfg.n_in : Int)
  else if cfg.hidden_layer_type.getD (i-1) "" ∈ BLSTM_variants
    then 2 * (cfg.hidden_layer_size.getD (i-1) 0 : Int)
    else (cfg.hidden_layer_size.getD (i-1) 0 : Int)

/-- `layer_input` as computed at lines 98-101: the network input `x` for the
first layer, otherwise `self.rnn_layers[i-1].output`. -/
def base_layer_input (i : Nat) : SymExpr :=
  if i = 0 then SymExpr.x else SymExpr.layerOut (i-1)

/-- Loop state threaded through the constructor's layer loop:
`self.rnn_layers`, `prev_seg_end` (a Python `0` that becomes a symbolic
expression after the first HED encoder) and `encoder_count` (lines 87-88). -/
structure BuildState where
  layers : List Layer
  prevSegEnd : SymExpr
  encoderCount : Nat
deriving DecidableEq

instance : Inhabited BuildState := ⟨⟨[], SymExpr.lit 0, 0⟩⟩

/-- Initial loop state: `prev_seg_end = 0`, `encoder_count = 0`, no layers. -/
def initBuild : BuildState := ⟨[], SymExpr.lit 0, 0⟩

/-- Result of the input-wiring part of one loop iteration (lines 91-123):
the `layer_input` expression and `input_size` handed to the layer
constructor, and the updated `prev_seg_end` / `encoder_count`. -/
structure Wire where
  layer_input : SymExpr
  input_size : Int
  prevSegEnd : SymExpr
  encoderCount : Nat
deriving DecidableEq

/-- Lines 91-123 of `__init__`: compute the layer input and declared input
size for iteration `i`, including the sequence-to-sequence encoder branch.
When the preceding tag (Python index `i-1`, so the LAST tag when `i = 0`)
is an encoder variant, the branch reads `self.d`/`self.f` (AttributeError
unless `network_type == "S2S"`); under `ed_type == "VED"` it concatenates the
encoded output with all frame features and adds 4 to the input size; under
`ed_type == "HED"` it slices the duration vector at
`[prev_seg_end : prev_seg_end + layer_input.size // input_size]`, encodes the
segment, concatenates the columns `MLU_div[encoder_count] :
MLU_div[encoder_count+1]` of the frame features (IndexError when `MLU_div`
is too short), widens the input size by that column count, advances
`prev_seg_end` and increments `encoder_count`. -/
def wireInput (cfg : Config) (st : BuildState) (i : Nat) : Except PyErr Wire :=
  let inp := base_layer_input i
  let isz := base_input_size cfg i
  if prevTag cfg i ∈ Encoder_variants then
    if cfg.network_type ≠ "S2S" then .error .attributeError
    else if cfg.ed_type = "VED" then
      .ok ⟨SymExpr.concat (SymExpr.encode inp SymExpr.d) SymExpr.f, isz + 4,
           st.prevSegEnd, st.encoderCount⟩
    else if cfg.ed_type = "HED" then
      let seg_len := SymExpr.sizeDiv inp isz
      let seg_dur := SymExpr.sliceVec SymExpr.d st.prevSegEnd
                       (SymExpr.addE st.prevSegEnd seg_len)
      if st.encoderCount + 1 < cfg.MLU_div_lengths.length then
        let a := cfg.MLU_div_lengths.getD st.encoderCount 0
        let b := cfg.MLU_div_lengths.getD (st.encoderCount + 1) 0
        .ok ⟨SymExpr.concat (SymExpr.encode inp seg_dur)
               (SymExpr.sliceMat SymExpr.f (SymExpr.sumE seg_dur) a b),
             isz + ((b : Int) - (a : Int)),
             SymExpr.addE st.prevSegEnd seg_len, st.encoderCount + 1⟩
      else .error .indexError
    else .ok ⟨inp, isz, st.prevSegEnd, st.encoderCount⟩
  else .ok ⟨inp, isz, st.prevSegEnd, st.encoderCount⟩

/-- The `elif` chain at lines 126-158 mapping a hidden-layer tag to the class
that is instantiated; an unsupported tag logs a critical message and calls
`sys.exit(1)`. -/
def layerClassOf (tag : String) : Except PyErr LayerClass :=
  if tag ∈ list_of_activations then .ok (LayerClass.GeneralLayer (strLower tag))
  else if tag = "TANHE" ∨ tag = "SIGMOIDE" then
    .ok (LayerClass.GeneralLayer (strLower (strDropLast tag)))
  else if tag = "TANH_LHUC" then .ok LayerClass.SigmoidLayer_LHUC
  else if tag = "SLSTM" ∨ tag = "SLSTME" then .ok LayerClass.SimplifiedLstm
  else if tag = "SLSTMD" then .ok LayerClass.SimplifiedLstmDecoder
  else if tag = "SGRU" then .ok LayerClass.SimplifiedGRU
  else if tag = "GRU" then .ok LayerClass.GatedRecurrentUnit
  else if tag = "LSTM" ∨ tag = "LSTME" then .ok LayerClass.VanillaLstm
  else if tag = "LSTMD" then .ok LayerClass.VanillaLstmDecoder
  else if tag = "BSLSTM" ∨ tag = "BSLSTME" then .ok LayerClass.BidirectionSLstm
  else if tag = "BLSTM" ∨ tag = "BLSTME" then .ok LayerClass.BidirectionLstm
  else if tag = "RNN" ∨ tag = "RNNE" then .ok LayerClass.VanillaRNN
  else if tag = "RNND" then .ok LayerClass.VanillaRNNDecoder
  else if tag = "LSTM_LHUC" then .ok LayerClass.VanillaLstm_LHUC
  else .error (PyErr.sysExit 1)

/-- One iteration of the layer loop (lines 90-161): wire the input, pick the
layer class from the tag, and append the constructed layer to
`self.rnn_layers`. -/
def buildStep (cfg : Config) (st : BuildState) (i : Nat) : Except PyErr BuildState :=
  match wireInput cfg st i with
  | .error e => .error e
  | .ok w =>
    match layerClassOf (cfg.hidden_layer_type.getD i "") with
    | .error e => .error e
    | .ok cls =>
      .ok ⟨st.layers ++ [⟨cls, w.layer_input, w.input_size, cfg.hidden_layer_size.getD i 0⟩],
           w.prevSegEnd, w.encoderCount⟩

/-- The layer loop `for i in range(self.n_layers)` run over a list of
iteration indices, short-circuiting on the first Python failure. -/
def buildAll (cfg : Config) : BuildState → List Nat → Except PyErr BuildState
  | st, [] => .ok st
  | st, i :: rest =>
    match buildStep cfg st i with
    | .error e => .error e
    | .ok st' => buildAll cfg st' rest

/-- The loss expressions assigned to `self.finetune_cost` / `self.errors`
(lines 188-208).  `cce p t` is `T.nnet.categorical_crossentropy(p, t).mean()`
(the cross-entropy kernel itself lives in Theano and stays opaque);
`hinge p t delta` is `self.multiclass_hinge_loss(p, t)` with its margin;
`mmse p t` is `T.mean(T.sum((p - t) ** 2, axis=1))`; `mmseBatch` is the
masked/reshaped variant used when `rnn_batch_training` is set. -/
inductive CostExpr where
  | cce : SymExpr → SymExpr → CostExpr
  | hinge : SymExpr → SymExpr → ℚ → CostExpr
  | mmse : SymExpr → SymExpr → CostExpr
  | mmseBatch : SymExpr → SymExpr → CostExpr
deriving DecidableEq

/-- Lines 188-208: select the cost by `loss_function`.  `none` models the
fall-through where no branch matches and `self.finetune_cost` is never
assigned.  The `Hinge` branch calls `multiclass_hinge_loss` without a
`delta` argument, so the margin is the declared default `1`. -/
def selectCost (cfg : Config) (fOut : SymExpr) : Option CostExpr :=
  if cfg.loss_function = "CCE" then some (CostExpr.cce fOut SymExpr.y)
  else if cfg.loss_function = "Hinge" then some (CostExpr.hinge fOut SymExpr.y 1)
  else if cfg.loss_function = "MMSE" then
    if cfg.rnn_batch_training then some (CostExpr.mmseBatch fOut SymExpr.y)
    else some (CostExpr.mmse fOut SymExpr.y)
  else none

/-- The attributes of the constructed network object that the claims inspect.
`finalSeparate` records whether the final layer is a newly constructed
object whose parameters were appended to `self.params` (line 181), as
opposed to an alias of `self.rnn_layers[-1]` (line 168). -/
structure Network where
  rnn_layers : List Layer
  final_layer : Layer
  finalSeparate : Bool
  final_output : SymExpr
  finetune_cost : Option CostExpr
  errors : Option CostExpr
  n_in : Nat
  n_out : Nat
  optimizer : String
  loss_function : String
deriving DecidableEq

instance : Inhabited Network :=
  ⟨⟨[], default, false, SymExpr.x, none, none, 0, 0, "sgd", "MMSE"⟩⟩

/-- Lines 163-208 of `__init__`, run after the layer loop: the final-layer
dispatch (`self.final_layer` is an alias of `self.rnn_layers[-1]` for a
decoder variant, otherwise a new output layer picked by `output_type`, with
`sys.exit(1)` on an unsupported `output_type`; `hidden_layer_size[-1]` /
`hidden_layer_type[-1]` raise IndexError on empty lists) followed by the
loss selection. -/
def finalStage (cfg : Config) (st : BuildState) : Except PyErr Network :=
  match cfg.hidden_layer_size.getLast? with
  | none => .error PyErr.indexError
  | some lastSize =>
    match cfg.hidden_layer_type.getLast? with
    | none => .error PyErr.indexError
    | some lastTag =>
    let fsize : Int :=
      if lastTag ∈ BLSTM_variants then 2 * (lastSize : Int) else (lastSize : Int)
    let n := st.layers.length
    if lastTag ∈ Decoder_variants then
      let fout := SymExpr.layerOut (n-1)
      .ok ⟨st.layers, st.layers.getLastD default, false, fout,
           selectCost cfg fout, selectCost cfg fout,
           cfg.n_in, cfg.n_out, cfg.optimizer, cfg.loss_function⟩
    else
      let oact := strLower cfg.output_type
      let fout := SymExpr.finalOut
      if oact = "linear" then
        .ok ⟨st.layers,
             ⟨LayerClass.LinearLayer, SymExpr.layerOut (n-1), fsize, cfg.n_out⟩,
             true, fout, selectCost cfg fout, selectCost cfg fout,
             cfg.n_in, cfg.n_out, cfg.optimizer, cfg.loss_function⟩
      else if oact = "recurrent" then
        .ok ⟨st.layers,
             ⟨LayerClass.RecurrentOutputLayer, SymExpr.layerOut (n-1), fsize, cfg.n_out⟩,
             true, fout, selectCost cfg fout, selectCost cfg fout,
             cfg.n_in, cfg.n_out, cfg.optimizer, cfg.loss_function⟩
      else if strUpper cfg.output_type ∈ list_of_activations then
        .ok ⟨st.layers,
             ⟨LayerClass.GeneralLayer oact, SymExpr.layerOut (n-1), fsize, cfg.n_out⟩,
             true, fout, selectCost cfg fout, selectCost cfg fout,
             cfg.n_in, cfg.n_out, cfg.optimizer, cfg.loss_function⟩
      else .error (PyErr.sysExit 1)

/-- `DeepEncoderDecoderNetwork.__init__` (lines 30-208): the length assert
(line 59), the layer loop (lines 90-161), and the final-layer and loss
stages (lines 163-208). -/
def construct (cfg : Config) : Except PyErr Network :=
  if cfg.hidden_layer_size.length ≠ cfg.hidden_layer_type.length then
    .error PyErr.assertionError
  else
    match buildAll cfg initBuild (List.range cfg.hidden_layer_size.length) with
    | .error e => .error e
    | .ok st => finalStage cfg st

/-! ## Optimizer updates (`build_finetune_functions`, lines 226-301)

`self.params` is the concatenation of each hidden layer's parameter list
(line 161) followed by the final layer's parameters when the final layer is
a separately constructed object (line 181).  Parameter internals live in the
layer classes outside this file's source, so the development is parametric
in a per-layer parameter count `npar`; a parameter is identified by its flat
index into `self.params`, and each shared array is modelled elementwise by a
single rational. -/

/-- A Theano shared variable touched by the SGD update dictionary:
`self.params[i]` or its velocity accumulator `self.updates[self.params[i]]`. -/
inductive SVar where
  | param : Nat → SVar
  | vel : Nat → SVar
deriving DecidableEq

/-- The right-hand sides written into the SGD update dictionary (lines
270-277): `upd = mom * weight_update - lr * gparam` for the velocity, and
`param + upd` for the parameter itself. -/
inductive UExpr where
  | velUpd : Nat → UExpr
  | paramUpd : Nat → UExpr
deriving DecidableEq

/-- The update `OrderedDict` built by the SGD branch (lines 268-277) for
parameter indices `0, ..., n-1`: every index gets a velocity update, and the
parameter itself is updated only when `freeze ≤ i` (the `i >= freeze_params`
test at line 276). -/
def sgdUpdates (freeze : Nat) : Nat → List (SVar × UExpr)
  | 0 => []
  | n+1 => sgdUpdates freeze n ++
      ((SVar.vel n, UExpr.velUpd n) ::
        (if freeze ≤ n then [(SVar.param n, UExpr.paramUpd n)] else []))

/-- First-match lookup in an update dictionary (ordered dict keyed by shared
variable). -/
def lookupVar : List (SVar × UExpr) → SVar → Option UExpr
  | [], _ => none
  | (k, e) :: rest, v => if k = v then some e else lookupVar rest v

/-- Numeric state of the shared variables: current parameter values and
current velocity accumulators, by flat parameter index. -/
structure PState where
  params : Nat → ℚ
  vels : Nat → ℚ

/-- Value of an update expression, evaluated in the pre-step state `st` with
gradient values `g` (the value of `T.grad(cost, params)[i]` at `st`). -/
def evalU (lr mom : ℚ) (g : Nat → ℚ) (st : PState) : UExpr → ℚ
  | UExpr.velUpd i => mom * st.vels i - lr * g i
  | UExpr.paramUpd i => st.params i + (mom * st.vels i - lr * g i)

/-- Semantics of one call of a compiled `theano.function` with update
dictionary `upds`: every assigned shared variable receives its right-hand
side evaluated in the pre-step state, all others are unchanged. -/
def applyUpdates (lr mom : ℚ) (g : Nat → ℚ) (upds : List (SVar × UExpr))
    (st : PState) : PState where
  params := fun i =>
    match lookupVar upds (SVar.param i) with
    | some e => evalU lr mom g st e
    | none => st.params i
  vels := fun i =>
    match lookupVar upds (SVar.vel i) with
    | some e => evalU lr mom g st e
    | none => st.vels i

/-- Lines 183-186: at construction time `self.updates[param]` is a zero
array of the parameter's shape, for every parameter. -/
def init_updates (nparams : Nat) : List ℚ := (List.range nparams).map (fun _ => 0)

/-- `len(self.params)` given a per-layer parameter count `npar`: the layer
loop extends `self.params` with each hidden layer's parameters (line 161),
and line 181 appends the final layer's parameters unless the final layer is
an alias of the last hidden layer. -/
def numParams (npar : Layer → Nat) (net : Network) : Nat :=
  (net.rnn_layers.map npar).sum +
    (if net.finalSeparate then npar net.final_layer else 0)

/-- The value accumulated by the loop at lines 261-263: the total parameter
count of the first `layer_index` hidden layers.  The loop indexes
`self.rnn_layers[layer]` for `layer < layer_index`, so it raises IndexError
when `layer_index` exceeds the layer count; that failure is checked by
`build_finetune_functions` before this sum is used, so here
`layer_index ≤ len(rnn_layers)` and `List.take` is exact. -/
def freeze_params (npar : Layer → Nat) (net : Network) (layer_index : Nat) : Nat :=
  ((net.rnn_layers.take layer_index).map npar).sum

/-- The update dictionary handed to `theano.function`: the SGD branch builds
it explicitly, the ADAM and RPROP branches delegate to the external
`training_schemes` modules (outside this file's source). -/
inductive UpdatesSpec where
  | explicit : List (SVar × UExpr) → UpdatesSpec
  | adam : UpdatesSpec
  | rprop : UpdatesSpec
deriving DecidableEq

/-- `build_finetune_functions` (lines 226-301) with the default
`use_lhuc=False`: returns the update dictionaries of the compiled training
and validation functions.  Before the optimizer dispatch the program can
fail twice: line 245 reads `self.finetune_cost`, which was never assigned
when `loss_function` matched no branch of lines 188-208 (AttributeError),
and the freeze loop at lines 261-263 indexes `self.rnn_layers[layer]` for
every `layer < layer_index` (IndexError when `layer_index` exceeds the
layer count).  Past those, the training function uses the optimizer's
updates (`sys.exit(1)` on an unsupported optimizer name, line 285); the
validation function is compiled with no `updates` argument at all
(lines 295-299), i.e. an empty update dictionary. -/
def build_finetune_functions (npar : Layer → Nat) (net : Network)
    (layer_index : Nat := 0) : Except PyErr (UpdatesSpec × UpdatesSpec) :=
  if net.finetune_cost = none then .error PyErr.attributeError
  else if net.rnn_layers.length < layer_index then .error PyErr.indexError
  else if net.optimizer = "sgd" then
    .ok (UpdatesSpec.explicit
          (sgdUpdates (freeze_params npar net layer_index) (numParams npar net)),
         UpdatesSpec.explicit [])
  else if net.optimizer = "adam" then .ok (UpdatesSpec.adam, UpdatesSpec.explicit [])
  else if net.optimizer = "rprop" then .ok (UpdatesSpec.rprop, UpdatesSpec.explicit [])
  else .error (PyErr.sysExit 1)

/-! ## Prediction entry points (lines 421-479) -/

/-- A binding in the `givens` dictionary of a compiled prediction function:
the placeholders `self.x`, `self.d`, `self.f` bound to concrete test data,
and `self.is_train` bound to an integer. -/
inductive Given where
  | gx : List (List ℚ) → Given
  | gd : List Int → Given
  | gf : List (List ℚ) → Given
  | gIsTrain : Int → Given
deriving DecidableEq

/-- A compiled inference `theano.function`: its output expression, its
`givens` bindings, and its update dictionary (always empty — none of the
prediction functions passes `updates`). -/
structure PredictFn where
  output : SymExpr
  givens : List Given
  updates : List (SVar × UExpr)
deriving DecidableEq

/-- `parameter_prediction` (lines 421-438): compiles
`self.final_layer.output` with `self.x` bound to
`test_set_x[0:test_set_x.shape[0]]` and `self.is_train` bound to 0. -/
def parameter_prediction (net : Network) (test_set_x : List (List ℚ)) : PredictFn :=
  ⟨net.final_output,
   [Given.gx (test_set_x.take test_set_x.length), Given.gIsTrain 0],
   []⟩

/-- `parameter_prediction_S2S` (lines 440-458): additionally binds `self.d`
to `test_set_d[0:test_set_x.shape[0]]`. -/
def parameter_prediction_S2S (net : Network) (test_set_x : List (List ℚ))
    (test_set_d : List Int) : PredictFn :=
  ⟨net.final_output,
   [Given.gx (test_set_x.take test_set_x.length),
    Given.gd (test_set_d.take test_set_x.length), Given.gIsTrain 0],
   []⟩

/-- `parameter_prediction_S2SPF` (lines 460-479): additionally binds `self.d`
to `test_set_d` and `self.f` to `test_set_f` (both unsliced). -/
def parameter_prediction_S2SPF (net : Network) (test_set_x : List (List ℚ))
    (test_set_d : List Int) (test_set_f : List (List ℚ)) : PredictFn :=
  ⟨net.final_output,
   [Given.gx (test_set_x.take test_set_x.length),
    Given.gd test_set_d, Given.gf test_set_f, Given.gIsTrain 0],
   []⟩

/-! ## Loss kernels written in this file's source

`multiclass_hinge_loss` (lines 213-223) is the one loss computed in this
file rather than delegated to Theano; it is embedded here over rational
matrices with one-hot 0/1 targets of matching shape (the branch at line 215
that one-hot-encodes integer targets is not exercised by matrix targets). -/

/-- `T.nnet.relu`. -/
def relu (q : ℚ) : ℚ := max q 0

/-- `.mean()` of a vector. -/
def mean (l : List ℚ) : ℚ := l.sum / (l.length : ℚ)

/-- `predictions[targets.nonzero()]`: row-major selection of the prediction
entries at the nonzero positions of `targets`. -/
def selectNonzero (predictions targets : List (List ℚ)) : List ℚ :=
  ((predictions.zip targets).map (fun row =>
    ((row.1.zip row.2).filter (fun pt => pt.2 ≠ 0)).map Prod.fst)).flatten

/-- `multiclass_hinge_loss` (lines 213-223) for one-hot matrix targets:
`corrects` are the predictions at the target positions, `rest` the
predictions elsewhere reshaped to `num_cls - 1` per row and maxed per row,
and the result is `relu(rest - corrects + delta).mean()` with default
margin `delta = 1`. -/
def multiclass_hinge_loss (predictions targets : List (List ℚ)) (delta : ℚ := 1) : ℚ :=
  let corrects := selectNonzero predictions targets
  let restFlat := selectNonzero predictions (targets.map (fun row => row.map (1 - ·)))
  let numCls := (predictions.headD []).length
  let rest := (restFlat.toChunks (numCls - 1)).map (fun c => c.foldr max (c.headD 0))
  mean ((rest.zip corrects).map (fun rc => relu (rc.1 - rc.2 + delta)))

/-! ## Specification-side tag mapping and supported-tag inventory -/

/-- The tag-to-class correspondence asserted by the specification for the
hidden-layer dispatch, written from the specification's own enumeration
(to be compared against `layerClassOf`, which is translated from the code):
activation tags map to `GeneralLayer` with the lowercased tag as activation,
and each remaining listed tag maps to the named recurrent class. -/
def c1_table : List (String × LayerClass) :=
  [("TANH", LayerClass.GeneralLayer "tanh"),
   ("SIGMOID", LayerClass.GeneralLayer "sigmoid"),
   ("SOFTMAX", LayerClass.GeneralLayer "softmax"),
   ("RELU", LayerClass.GeneralLayer "relu"),
   ("RESU", LayerClass.GeneralLayer "resu"),
   ("SLSTM", LayerClass.SimplifiedLstm),
   ("SLSTME", LayerClass.SimplifiedLstm),
   ("SLSTMD", LayerClass.SimplifiedLstmDecoder),
   ("SGRU", LayerClass.SimplifiedGRU),
   ("GRU", LayerClass.GatedRecurrentUnit),
   ("LSTM", LayerClass.VanillaLstm),
   ("LSTME", LayerClass.VanillaLstm),
   ("LSTMD", LayerClass.VanillaLstmDecoder),
   ("BSLSTM", LayerClass.BidirectionSLstm),
   ("BSLSTME", LayerClass.BidirectionSLstm),
   ("BLSTM", LayerClass.BidirectionLstm),
   ("BLSTME", LayerClass.BidirectionLstm),
   ("RNN", LayerClass.VanillaRNN),
   ("RNNE", LayerClass.VanillaRNN),
   ("RNND", LayerClass.VanillaRNNDecoder),
   ("TANH_LHUC", LayerClass.SigmoidLayer_LHUC),
   ("LSTM_LHUC", LayerClass.VanillaLstm_LHUC)]

/-- The class the specification assigns to a tag, `none` for tags the
specification's enumeration does not list. -/
def spec_c1_tag_class (tag : String) : Option LayerClass :=
  (c1_table.find? (fun p => p.1 == tag)).map Prod.snd

/-- The full set of hidden-layer tags accepted by the `elif` chain at
lines 126-155 (every other tag reaches the `sys.exit(1)` branch at
line 158). -/
def supported_hidden_tags : List String :=
  list_of_activations ++
    ["TANHE", "SIGMOIDE", "TANH_LHUC", "SLSTM", "SLSTME", "SLSTMD", "SGRU",
     "GRU", "LSTM", "LSTME", "LSTMD", "BSLSTM", "BSLSTME", "BLSTM", "BLSTME",
     "RNN", "RNNE", "RNND", "LSTM_LHUC"]

/-! ## Concrete example configurations

Small instantiations of the constructor arguments, used to evaluate the
embedded code on closed inputs. -/

/-- A plain two-layer network: `TANH` then `LSTM`, linear output, MMSE,
SGD. -/
def cfgA : Config :=
  { n_in := 3, hidden_layer_size := [4, 5], n_out := 2,
    hidden_layer_type := ["TANH", "LSTM"] }

/-- The network built from `cfgA`. -/
def netA : Network := (construct cfgA).toOption.getD default

/-- An `LSTME` encoder followed by a `TANH` layer, with frame-feature
column table `MLU_div_lengths = [0, 2]`. -/
def cfgEncMid : Config :=
  { n_in := 3, hidden_layer_size := [4, 5], n_out := 2,
    hidden_layer_type := ["LSTME", "TANH"], MLU_div_lengths := [0, 2] }

/-- The network built from `cfgEncMid`. -/
def netEncMid : Network := (construct cfgEncMid).toOption.getD default

/-- A network whose LAST hidden tag is the encoder variant `LSTME`. -/
def cfgEncLast : Config :=
  { n_in := 2, hidden_layer_size := [3, 4], n_out := 2,
    hidden_layer_type := ["TANH", "LSTME"], MLU_div_lengths := [0, 1] }

/-- The network built from `cfgEncLast`. -/
def netEncLast : Network := (construct cfgEncLast).toOption.getD default

/-- A configuration with an unsupported hidden-layer tag. -/
def cfgBadTag : Config :=
  { n_in := 3, hidden_layer_size := [4], n_out := 2,
    hidden_layer_type := ["FOO"] }

/-- A configuration with an unsupported output type. -/
def cfgBadOutput : Config :=
  { n_in := 3, hidden_layer_size := [4], n_out := 2,
    hidden_layer_type := ["TANH"], output_type := "CUBIC" }

/-- The loop state of `cfgBadOutput` after its single iteration. -/
def stBadOutput : BuildState :=
  (buildAll cfgBadOutput initBuild (List.range 1)).toOption.getD default

/-- A network object carrying an unsupported optimizer name. -/
def netBadOptimizer : Network := { netA with optimizer := "momentum" }

/-- A configuration violating the length assert: two sizes, one type. -/
def cfgBadLen : Config :=
  { n_in := 3, hidden_layer_size := [4, 5], n_out := 2,
    hidden_layer_type := ["TANH"] }

/-- One parameter per layer: the simplest per-layer parameter count. -/
def nparOne : Layer → Nat := fun _ => 1

/-- The update dictionaries built over `netA` with `layer_index = 0`. -/
def fnsA0 : UpdatesSpec × UpdatesSpec :=
  (build_finetune_functions nparOne netA 0).toOption.getD
    (UpdatesSpec.explicit [], UpdatesSpec.explicit [])

/-- The update dictionaries built over `netA` with `layer_index = 1`. -/
def fnsA1 : UpdatesSpec × UpdatesSpec :=
  (build_finetune_functions nparOne netA 1).toOption.getD
    (UpdatesSpec.explicit [], UpdatesSpec.explicit [])

/-! ## Helper lemmas about the layer loop -/

theorem buildAll_append (cfg : Config) (l1 l2 : List Nat) :
    ∀ st, buildAll cfg st (l1 ++ l2) =
      match buildAll cfg st l1 with
      | .ok st1 => buildAll cfg st1 l2
      | .error e => .error e := by
  induction l1 with
  | nil => intro st; rfl
  | cons i rest ih =>
    intro st
    simp only [List.cons_append, buildAll]
    cases buildStep cfg st i with
    | error e => rfl
    | ok st' => exact ih st'

theorem buildStep_ok_iff {cfg : Config} {st st' : BuildState} {i : Nat} :
    buildStep cfg st i = .ok st' ↔
      ∃ w cls, wireInput cfg st i = .ok w ∧
        layerClassOf (cfg.hidden_layer_type.getD i "") = .ok cls ∧
        st' = ⟨st.layers ++
                 [⟨cls, w.layer_input, w.input_size, cfg.hidden_layer_size.getD i 0⟩],
               w.prevSegEnd, w.encoderCount⟩ := by
  unfold buildStep
  cases hw : wireInput cfg st i with
  | error e =>
    constructor
    · intro h; cases h
    · rintro ⟨w, cls, hw', -, -⟩; cases hw'
  | ok w =>
    cases hc : layerClassOf (cfg.hidden_layer_type.getD i "") with
    | error e =>
      constructor
      · intro h; cases h
      · rintro ⟨w', cls, -, hc', -⟩; cases hc'
    | ok cls =>
      constructor
      · intro h
        injection h with h
        exact ⟨w, cls, rfl, rfl, h.symm⟩
      · rintro ⟨w', cls', hw', hc', rfl⟩
        injection hw' with hw2
        injection hc' with hc2
        subst hw2
        subst hc2
        rfl

theorem buildStep_length {cfg : Config} {st st' : BuildState} {i : Nat}
    (h : buildStep cfg st i = .ok st') :
    st'.layers.length = st.layers.length + 1 := by
  obtain ⟨w, cls, -, -, rfl⟩ := buildStep_ok_iff.mp h
  simp

theorem wireInput_error {cfg : Config} {st : BuildState} {i : Nat} {e : PyErr}
    (h : wireInput cfg st i = .error e) :
    e = PyErr.attributeError ∨ e = PyErr.indexError := by
  unfold wireInput at h
  split_ifs at h
  all_goals first
    | exact (Except.noConfusion h)
    | (injection h with h2
       first | exact Or.inl h2.symm | exact Or.inr h2.symm)

/-- Results whose only possible error is `sys.exit(1)`. -/
def OnlyExit (r : Except PyErr LayerClass) : Prop :=
  ∀ e, r = .error e → e = PyErr.sysExit 1

theorem onlyExit_ok (c : LayerClass) : OnlyExit (.ok c) :=
  fun _ h => Except.noConfusion h

theorem onlyExit_exit : OnlyExit (.error (PyErr.sysExit 1)) :=
  fun _ h => (Except.error.inj h).symm

theorem onlyExit_ite {c : Prop} [Decidable c] {a b : Except PyErr LayerClass}
    (ha : OnlyExit a) (hb : OnlyExit b) : OnlyExit (if c then a else b) := by
  by_cases h : c
  · rwa [if_pos h]
  · rwa [if_neg h]

theorem layerClassOf_onlyExit (tag : String) : OnlyExit (layerClassOf tag) := by
  unfold layerClassOf
  repeat first
    | exact onlyExit_ok _
    | exact onlyExit_exit
    | apply onlyExit_ite (onlyExit_ok _)

theorem layerClassOf_error {tag : String} {e : PyErr}
    (h : layerClassOf tag = .error e) : e = PyErr.sysExit 1 :=
  layerClassOf_onlyExit tag e h

theorem buildStep_error {cfg : Config} {st : BuildState} {i : Nat} {e : PyErr}
    (h : buildStep cfg st i = .error e) :
    e = PyErr.attributeError ∨ e = PyErr.indexError ∨ e = PyErr.sysExit 1 := by
  unfold buildStep at h
  cases hw : wireInput cfg st i with
  | error e' =>
    rw [hw] at h
    injection h with h
    subst h
    rcases wireInput_error hw with h' | h' <;> simp [h']
  | ok w =>
    rw [hw] at h
    cases hc : layerClassOf (cfg.hidden_layer_type.getD i "") with
    | error e' =>
      rw [hc] at h
      injection h with h
      subst h
      simp [layerClassOf_error hc]
    | ok cls => rw [hc] at h; cases h

theorem buildAll_error {cfg : Config} {e : PyErr} :
    ∀ l st, buildAll cfg st l = .error e →
      e = PyErr.attributeError ∨ e = PyErr.indexError ∨ e = PyErr.sysExit 1 := by
  intro l
  induction l with
  | nil =>
    intro st h
    simp only [buildAll] at h
    exact Except.noConfusion h
  | cons i rest ih =>
    intro st h
    simp only [buildAll] at h
    cases hs : buildStep cfg st i with
    | error e' =>
      rw [hs] at h
      injection h with h
      subst h
      exact buildStep_error hs
    | ok st' => rw [hs] at h; exact ih st' h

theorem buildAll_length (cfg : Config) :
    ∀ l st st', buildAll cfg st l = .ok st' →
      st'.layers.length = st.layers.length + l.length := by
  intro l
  induction l with
  | nil =>
    intro st st' h
    simp only [buildAll] at h
    injection h with h
    subst h
    simp
  | cons i rest ih =>
    intro st st' h
    simp only [buildAll] at h
    cases hs : buildStep cfg st i with
    | error e => rw [hs] at h; cases h
    | ok st1 =>
      rw [hs] at h
      have h1 := buildStep_length hs
      have h2 := ih st1 st' h
      simp only [List.length_cons]
      omega

theorem buildAll_range_succ (cfg : Config) (n : Nat) (st : BuildState) :
    buildAll cfg st (List.range (n+1)) =
      match buildAll cfg st (List.range n) with
      | .ok st1 => buildStep cfg st1 n
      | .error e => .error e := by
  rw [List.range_succ, buildAll_append]
  cases buildAll cfg st (List.range n) with
  | error e => rfl
  | ok st1 =>
    show buildAll cfg st1 [n] = buildStep cfg st1 n
    simp only [buildAll]
    cases buildStep cfg st1 n <;> rfl

theorem buildAll_range_get (cfg : Config) :
    ∀ n st', buildAll cfg initBuild (List.range n) = .ok st' →
      ∀ i, i < n → ∃ st1 st2,
        buildAll cfg initBuild (List.range i) = .ok st1 ∧
        buildStep cfg st1 i = .ok st2 ∧
        st1.layers.length = i ∧
        st'.layers.getD i default = st2.layers.getD i default := by
  intro n
  induction n with
  | zero => intro st' _ i hi; omega
  | succ n ih =>
    intro st' h i hi
    rw [buildAll_range_succ] at h
    cases hmid : buildAll cfg initBuild (List.range n) with
    | error e => rw [hmid] at h; cases h
    | ok stMid =>
      rw [hmid] at h
      have hlenMid : stMid.layers.length = n := by
        have := buildAll_length cfg _ _ _ hmid
        simpa [initBuild] using this
      rcases Nat.lt_succ_iff_lt_or_eq.mp hi with hlt | rfl
      · obtain ⟨st1, st2, h1, h2, hl1, hget⟩ := ih stMid hmid i hlt
        refine ⟨st1, st2, h1, h2, hl1, ?_⟩
        obtain ⟨w, cls, -, -, rfl⟩ := buildStep_ok_iff.mp h
        rw [← hget]
        exact List.getD_append _ _ _ _ (by omega)
      · exact ⟨stMid, st', hmid, h, hlenMid, rfl⟩

theorem construct_ok_elim {cfg : Config} {net : Network}
    (h : construct cfg = .ok net) :
    cfg.hidden_layer_size.length = cfg.hidden_layer_type.length ∧
    ∃ st, buildAll cfg initBuild (List.range cfg.hidden_layer_size.length) = .ok st ∧
      finalStage cfg st = .ok net := by
  unfold construct at h
  split_ifs at h with hne
  refine ⟨by omega, ?_⟩
  cases hb : buildAll cfg initBuild (List.range cfg.hidden_layer_size.length) with
  | error e => rw [hb] at h; simp at h
  | ok st => rw [hb] at h; exact ⟨st, rfl, h⟩

theorem finalStage_ok_elim {cfg : Config} {st : BuildState} {net : Network}
    (h : finalStage cfg st = .ok net) :
    ∃ lastSize lastTag, cfg.hidden_layer_size.getLast? = some lastSize ∧
      cfg.hidden_layer_type.getLast? = some lastTag ∧
      net.rnn_layers = st.layers ∧
      net.finetune_cost = selectCost cfg net.final_output ∧
      net.errors = selectCost cfg net.final_output ∧
      net.optimizer = cfg.optimizer ∧
      net.loss_function = cfg.loss_function ∧
      ((lastTag ∈ Decoder_variants ∧ net.finalSeparate = false ∧
          net.final_layer = st.layers.getLastD default ∧
          net.final_output = SymExpr.layerOut (st.layers.length - 1)) ∨
       (lastTag ∉ Decoder_variants ∧ net.finalSeparate = true ∧
          net.final_output = SymExpr.finalOut ∧
          net.final_layer.input = SymExpr.layerOut (st.layers.length - 1) ∧
          net.final_layer.inputSize =
            (if lastTag ∈ BLSTM_variants then 2 * (lastSize : Int) else (lastSize : Int)) ∧
          net.final_layer.outSize = cfg.n_out)) := by
  unfold finalStage at h
  cases hS : cfg.hidden_layer_size.getLast? with
  | none => rw [hS] at h; cases h
  | some lastSize =>
    rw [hS] at h
    cases hT : cfg.hidden_layer_type.getLast? with
    | none => rw [hT] at h; cases h
    | some lastTag =>
      rw [hT] at h
      simp only at h
      refine ⟨lastSize, lastTag, rfl, rfl, ?_⟩
      split_ifs at h with h1 h2 h3 h4 h5 h6 h7
      all_goals cases h
      all_goals refine ⟨rfl, rfl, rfl, rfl, rfl, ?_⟩
      all_goals first
        | exact Or.inl ⟨by assumption, rfl, rfl, rfl⟩
        | exact Or.inr ⟨by assumption, rfl, rfl, rfl, by simp [*], rfl⟩

theorem finalStage_layers {cfg : Config} {st : BuildState} {net : Network}
    (h : finalStage cfg st = .ok net) : net.rnn_layers = st.layers := by
  obtain ⟨-, -, -, -, hl, -⟩ := finalStage_ok_elim h
  exact hl

theorem construct_layer {cfg : Config} {net : Network}
    (h : construct cfg = .ok net) {i : Nat}
    (hi : i < cfg.hidden_layer_size.length) :
    ∃ st1 w cls,
      buildAll cfg initBuild (List.range i) = .ok st1 ∧
      st1.layers.length = i ∧
      wireInput cfg st1 i = .ok w ∧
      layerClassOf (cfg.hidden_layer_type.getD i "") = .ok cls ∧
      net.rnn_layers.getD i default =
        ⟨cls, w.layer_input, w.input_size, cfg.hidden_layer_size.getD i 0⟩ := by
  obtain ⟨hlen, st, hb, hf⟩ := construct_ok_elim h
  obtain ⟨st1, st2, h1, h2, hl1, hget⟩ := buildAll_range_get cfg _ _ hb i hi
  obtain ⟨w, cls, hw, hc, rfl⟩ := buildStep_ok_iff.mp h2
  refine ⟨st1, w, cls, h1, hl1, hw, hc, ?_⟩
  rw [finalStage_layers hf, hget]
  show (st1.layers ++ [_]).getD i default = _
  rw [List.getD_append_right _ _ _ _ (by omega), hl1]
  simp

theorem construct_length {cfg : Config} {net : Network}
    (h : construct cfg = .ok net) :
    net.rnn_layers.length = cfg.hidden_layer_type.length := by
  obtain ⟨hlen, st, hb, hf⟩ := construct_ok_elim h
  rw [finalStage_layers hf]
  have := buildAll_length cfg _ _ _ hb
  simp [initBuild] at this
  omega

/-! ## Helper lemmas about the SGD update dictionary -/

theorem lookupVar_append (l1 l2 : List (SVar × UExpr)) (v : SVar) :
    lookupVar (l1 ++ l2) v =
      match lookupVar l1 v with
      | some e => some e
      | none => lookupVar l2 v := by
  induction l1 with
  | nil => rfl
  | cons p rest ih =>
    simp only [List.cons_append, lookupVar]
    by_cases h : p.1 = v
    · simp [h]
    · simp [h, ih]

theorem sgd_lookup_vel (freeze : Nat) :
    ∀ n i, lookupVar (sgdUpdates freeze n) (SVar.vel i) =
      if i < n then some (UExpr.velUpd i) else none := by
  intro n
  induction n with
  | zero => intro i; simp [sgdUpdates, lookupVar]
  | succ n ih =>
    intro i
    rw [sgdUpdates, lookupVar_append, ih]
    by_cases hin : i < n
    · simp [hin, Nat.lt_succ_of_lt hin]
    · simp only [hin, if_neg, ite_false]
      by_cases heq : i = n
      · subst heq
        simp [lookupVar, Nat.lt_succ_self]
      · have : ¬ i < n + 1 := by omega
        simp only [this, if_neg, ite_false, lookupVar]
        have hne : SVar.vel n ≠ SVar.vel i := by simp [Ne.symm heq]
        rw [if_neg hne]
        by_cases hf : freeze ≤ n
        · simp [hf, lookupVar]
        · simp [hf, lookupVar]

theorem sgd_lookup_param (freeze : Nat) :
    ∀ n i, lookupVar (sgdUpdates freeze n) (SVar.param i) =
      if i < n ∧ freeze ≤ i then some (UExpr.paramUpd i) else none := by
  intro n
  induction n with
  | zero => intro i; simp [sgdUpdates, lookupVar]
  | succ n ih =>
    intro i
    rw [sgdUpdates, lookupVar_append, ih]
    by_cases hin : i < n
    · by_cases hfi : freeze ≤ i
      · simp [hin, hfi, Nat.lt_succ_of_lt hin]
      · simp only [hin, hfi, and_false, if_neg, ite_false, lookupVar]
        by_cases hf : freeze ≤ n
        · have hne2 : SVar.param n ≠ SVar.param i := by
            simp
            omega
          simp [hf, lookupVar, hne2]
        · simp [hf, lookupVar]
    · have hno : ¬ (i < n ∧ freeze ≤ i) := by omega
      simp only [hno, if_neg, ite_false, lookupVar]
      have hne : SVar.vel n ≠ SVar.param i := by simp
      rw [if_neg hne]
      by_cases heq : i = n
      · subst heq
        by_cases hf : freeze ≤ i
        · have : i < i + 1 ∧ freeze ≤ i := ⟨Nat.lt_succ_self i, hf⟩
          simp [hf, lookupVar, this]
        · have : ¬ (i < i + 1 ∧ freeze ≤ i) := by omega
          simp [hf, lookupVar, this]
      · have : ¬ (i < n + 1 ∧ freeze ≤ i) := by omega
        rw [if_neg this]
        by_cases hf : freeze ≤ n
        · have hne2 : SVar.param n ≠ SVar.param i := by simp [Ne.symm heq]
          simp [hf, lookupVar, hne2]
        · simp [hf, lookupVar]

theorem applyUpdates_sgd_vel (lr mom : ℚ) (g : Nat → ℚ) (st : PState)
    (freeze n i : Nat) (hi : i < n) :
    (applyUpdates lr mom g (sgdUpdates freeze n) st).vels i =
      mom * st.vels i - lr * g i := by
  simp [applyUpdates, sgd_lookup_vel, hi, evalU]

theorem applyUpdates_sgd_param_active (lr mom : ℚ) (g : Nat → ℚ) (st : PState)
    (freeze n i : Nat) (hi : i < n) (hf : freeze ≤ i) :
    (applyUpdates lr mom g (sgdUpdates freeze n) st).params i =
      st.params i + (mom * st.vels i - lr * g i) := by
  simp [applyUpdates, sgd_lookup_param, hi, hf, evalU]

theorem applyUpdates_sgd_param_frozen (lr mom : ℚ) (g : Nat → ℚ) (st : PState)
    (freeze n i : Nat) (hf : i < freeze) :
    (applyUpdates lr mom g (sgdUpdates freeze n) st).params i = st.params i := by
  have : ¬ (i < n ∧ freeze ≤ i) := by omega
  simp [applyUpdates, sgd_lookup_param, this]

theorem applyUpdates_nil (lr mom : ℚ) (g : Nat → ℚ) (st : PState) :
    applyUpdates lr mom g [] st = st := rfl

/-! ## Bridging lemmas -/

theorem c1_table_sound : ∀ p ∈ c1_table, layerClassOf p.1 = .ok p.2 := by decide

theorem spec_c1_subset {tag : String} {c : LayerClass}
    (h : spec_c1_tag_class tag = some c) : layerClassOf tag = .ok c := by
  unfold spec_c1_tag_class at h
  cases hf : c1_table.find? (fun p => p.1 == tag) with
  | none => rw [hf] at h; cases h
  | some p =>
    rw [hf] at h
    simp only [Option.map_some'] at h
    have hmem := List.mem_of_find?_eq_some hf
    have hp := List.find?_some hf
    have heq : p.1 = tag := by simpa using hp
    subst heq
    injection h with h
    subst h
    exact c1_table_sound p hmem

theorem layerClassOf_unsupported {tag : String}
    (h : tag ∉ supported_hidden_tags) :
    layerClassOf tag = .error (PyErr.sysExit 1) := by
  simp only [supported_hidden_tags, List.mem_append, List.mem_cons,
    List.not_mem_nil, or_false, not_or] at h
  obtain ⟨hA, hTE, hSE, hTL, hS1, hS2, hSD, hG, hGRU, hL1, hL2, hLD,
    hB1, hB2, hBL1, hBL2, hR1, hR2, hRD, hLH⟩ := h
  unfold layerClassOf
  rw [if_neg hA,
      if_neg (fun hor => hor.elim hTE hSE),
      if_neg hTL,
      if_neg (fun hor => hor.elim hS1 hS2),
      if_neg hSD,
      if_neg hG,
      if_neg hGRU,
      if_neg (fun hor => hor.elim hL1 hL2),
      if_neg hLD,
      if_neg (fun hor => hor.elim hB1 hB2),
      if_neg (fun hor => hor.elim hBL1 hBL2),
      if_neg (fun hor => hor.elim hR1 hR2),
      if_neg hRD,
      if_neg hLH]

theorem wireInput_not_enc {cfg : Config} {st : BuildState} {i : Nat}
    (henc : prevTag cfg i ∉ Encoder_variants) :
    wireInput cfg st i =
      .ok ⟨base_layer_input i, base_input_size cfg i, st.prevSegEnd, st.encoderCount⟩ := by
  unfold wireInput
  rw [if_neg henc]

theorem wireInput_hed {cfg : Config} {st : BuildState} {i : Nat} {w : Wire}
    (henc : prevTag cfg i ∈ Encoder_variants) (hed : cfg.ed_type = "HED")
    (hw : wireInput cfg st i = .ok w) :
    cfg.network_type = "S2S" ∧
    st.encoderCount + 1 < cfg.MLU_div_lengths.length ∧
    w = ⟨SymExpr.concat
           (SymExpr.encode (base_layer_input i)
             (SymExpr.sliceVec SymExpr.d st.prevSegEnd
               (SymExpr.addE st.prevSegEnd
                 (SymExpr.sizeDiv (base_layer_input i) (base_input_size cfg i)))))
           (SymExpr.sliceMat SymExpr.f
             (SymExpr.sumE (SymExpr.sliceVec SymExpr.d st.prevSegEnd
               (SymExpr.addE st.prevSegEnd
                 (SymExpr.sizeDiv (base_layer_input i) (base_input_size cfg i)))))
             (cfg.MLU_div_lengths.getD st.encoderCount 0)
             (cfg.MLU_div_lengths.getD (st.encoderCount + 1) 0)),
         base_input_size cfg i +
           ((cfg.MLU_div_lengths.getD (st.encoderCount + 1) 0 : Int) -
             (cfg.MLU_div_lengths.getD st.encoderCount 0 : Int)),
         SymExpr.addE st.prevSegEnd
           (SymExpr.sizeDiv (base_layer_input i) (base_input_size cfg i)),
         st.encoderCount + 1⟩ := by
  unfold wireInput at hw
  rw [if_pos henc] at hw
  by_cases hnet : cfg.network_type ≠ "S2S"
  · rw [if_pos hnet] at hw; cases hw
  · rw [if_neg hnet] at hw
    rw [hed] at hw
    rw [if_neg (by decide)] at hw
    rw [if_pos rfl] at hw
    by_cases hm : st.encoderCount + 1 < cfg.MLU_div_lengths.length
    · rw [if_pos hm] at hw
      injection hw with hw
      push_neg at hnet
      exact ⟨hnet, hm, hw.symm⟩
    · rw [if_neg hm] at hw; cases hw

theorem wireInput_ved {cfg : Config} {st : BuildState} {i : Nat} {w : Wire}
    (henc : prevTag cfg i ∈ Encoder_variants) (hed : cfg.ed_type = "VED")
    (hw : wireInput cfg st i = .ok w) :
    cfg.network_type = "S2S" ∧
    w = ⟨SymExpr.concat (SymExpr.encode (base_layer_input i) SymExpr.d) SymExpr.f,
         base_input_size cfg i + 4, st.prevSegEnd, st.encoderCount⟩ := by
  unfold wireInput at hw
  rw [if_pos henc] at hw
  by_cases hnet : cfg.network_type ≠ "S2S"
  · rw [if_pos hnet] at hw; cases hw
  · rw [if_neg hnet] at hw
    rw [hed] at hw
    rw [if_pos rfl] at hw
    injection hw with hw
    push_neg at hnet
    exact ⟨hnet, hw.symm⟩

theorem buildAll_range_error_at {cfg : Config} {st : BuildState} {i : Nat}
    {e : PyErr} {n : Nat}
    (hi : i < n)
    (hpre : buildAll cfg initBuild (List.range i) = .ok st)
    (hstep : buildStep cfg st i = .error e) :
    buildAll cfg initBuild (List.range n) = .error e := by
  induction n with
  | zero => omega
  | succ n ih =>
    rw [buildAll_range_succ]
    rcases Nat.lt_succ_iff_lt_or_eq.mp hi with hlt | rfl
    · rw [ih hlt]
    · rw [hpre]
      exact hstep

theorem finalStage_error {cfg : Config} {st : BuildState} {e : PyErr}
    (h : finalStage cfg st = .error e) :
    e = PyErr.indexError ∨ e = PyErr.sysExit 1 := by
  unfold finalStage at h
  cases hS : cfg.hidden_layer_size.getLast? with
  | none => rw [hS] at h; injection h with h2; exact Or.inl h2.symm
  | some ls =>
    rw [hS] at h
    cases hT : cfg.hidden_layer_type.getLast? with
    | none => rw [hT] at h; injection h with h2; exact Or.inl h2.symm
    | some lt =>
      rw [hT] at h
      simp only at h
      split_ifs at h
      all_goals first
        | exact (Except.noConfusion h)
        | (injection h with h2; exact Or.inr h2.symm)

theorem init_updates_getD {n i : Nat} (hi : i < n) :
    (init_updates n).getD i 1 = 0 := by
  simp [init_updates, List.getD_eq_getD_get?, List.get?_eq_getElem?,
    List.getElem?_map, List.getElem?_range, hi]

theorem freeze_le_numParams (npar : Layer → Nat) (net : Network) (k : Nat) :
    freeze_params npar net k ≤ numParams npar net := by
  unfold freeze_params numParams
  have h : ((net.rnn_layers.take k).map npar).sum ≤ ((net.rnn_layers).map npar).sum := by
    conv_rhs => rw [← List.take_append_drop k net.rnn_layers]
    rw [List.map_append, List.sum_append]
    omega
  omega

/-! ## Claim theorems -/

/-- C1: after a successful construction `len(self.rnn_layers)` equals
`len(hidden_layer_type)`, and for every index `i` whose tag the
specification's enumeration lists, the layer appended at position `i` of
`self.rnn_layers` is an instance of exactly the class that enumeration
assigns to the tag (`TANH`/`SIGMOID`/`SOFTMAX`/`RELU`/`RESU` to
`GeneralLayer` with the lowercased activation, `SLSTM`/`SLSTME` to
`SimplifiedLstm`, `SLSTMD` to `SimplifiedLstmDecoder`, `SGRU` to
`SimplifiedGRU`, `GRU` to `GatedRecurrentUnit`, `LSTM`/`LSTME` to
`VanillaLstm`, `LSTMD` to `VanillaLstmDecoder`, `BSLSTM`/`BSLSTME` to
`BidirectionSLstm`, `BLSTM`/`BLSTME` to `BidirectionLstm`, `RNN`/`RNNE` to
`VanillaRNN`, `RNND` to `VanillaRNNDecoder`, `TANH_LHUC` to
`SigmoidLayer_LHUC`, `LSTM_LHUC` to `VanillaLstm_LHUC`). -/
theorem c1_layer_dispatch (cfg : Config) (net : Network)
    (hok : construct cfg = .ok net) :
    net.rnn_layers.length = cfg.hidden_layer_type.length ∧
    ∀ i c, i < cfg.hidden_layer_type.length →
      spec_c1_tag_class (cfg.hidden_layer_type.getD i "") = some c →
      (net.rnn_layers.getD i default).cls = c := by
  obtain ⟨hlen, -⟩ := construct_ok_elim hok
  refine ⟨construct_length hok, ?_⟩
  intro i c hi hc
  obtain ⟨st1, w, cls, -, -, -, hcls, hlayer⟩ :=
    construct_layer hok (show i < cfg.hidden_layer_size.length by omega)
  have hok2 := spec_c1_subset hc
  rw [hcls] at hok2
  injection hok2 with hok2
  subst hok2
  rw [hlayer]

/-- Witness for C1 on the concrete configuration `cfgA`. -/
theorem c1_layer_dispatch_witness :
    construct cfgA = .ok netA ∧
    netA.rnn_layers.length = cfgA.hidden_layer_type.length ∧
    (netA.rnn_layers.getD 1 default).cls = LayerClass.VanillaLstm := by
  have h : construct cfgA = .ok netA := by decide
  exact ⟨h, (c1_layer_dispatch cfgA netA h).1,
         (c1_layer_dispatch cfgA netA h).2 1 LayerClass.VanillaLstm
           (by decide) (by decide)⟩

/-- C5: the training cost and the reported errors are selected by
`loss_function`: `MMSE` with `rnn_batch_training = False` assigns both
`self.finetune_cost` and `self.errors` the expression
`T.mean(T.sum((final_layer.output - y) ** 2, axis=1))`; `CCE` assigns both
the mean categorical cross-entropy of the final output against `y`;
`Hinge` assigns both the multiclass hinge loss of the final output against
`y` with the default margin `delta = 1`. -/
theorem c5_loss_selection (cfg : Config) (net : Network)
    (hok : construct cfg = .ok net) :
    (cfg.loss_function = "MMSE" → cfg.rnn_batch_training = false →
      net.finetune_cost = some (CostExpr.mmse net.final_output SymExpr.y) ∧
      net.errors = some (CostExpr.mmse net.final_output SymExpr.y)) ∧
    (cfg.loss_function = "CCE" →
      net.finetune_cost = some (CostExpr.cce net.final_output SymExpr.y) ∧
      net.errors = some (CostExpr.cce net.final_output SymExpr.y)) ∧
    (cfg.loss_function = "Hinge" →
      net.finetune_cost = some (CostExpr.hinge net.final_output SymExpr.y 1) ∧
      net.errors = some (CostExpr.hinge net.final_output SymExpr.y 1)) := by
  obtain ⟨-, st, -, hf⟩ := construct_ok_elim hok
  obtain ⟨-, -, -, -, -, hcost, herr, -⟩ := finalStage_ok_elim hf
  refine ⟨?_, ?_, ?_⟩
  · intro hl hb
    rw [hcost, herr]
    simp [selectCost, hl, hb]
  · intro hl
    rw [hcost, herr]
    simp [selectCost, hl]
  · intro hl
    rw [hcost, herr]
    simp [selectCost, hl]

/-- Witness for C5 on `cfgA` (loss `MMSE`, non-batch). -/
theorem c5_loss_selection_witness :
    construct cfgA = .ok netA ∧
    netA.finetune_cost = some (CostExpr.mmse netA.final_output SymExpr.y) ∧
    netA.errors = some (CostExpr.mmse netA.final_output SymExpr.y) := by
  have h : construct cfgA = .ok netA := by decide
  exact ⟨h, (c5_loss_selection cfgA netA h).1 rfl rfl⟩

/-- C6: each prediction entry point compiles a function whose output is
`self.final_layer.output`, with `self.x` bound to the (fully sliced) test
features and `self.is_train` bound to 0, and with an empty update
dictionary, so applying it leaves every parameter unchanged;
`parameter_prediction_S2S` additionally binds `self.d` to
`test_set_d[0:test_set_x.shape[0]]`, and `parameter_prediction_S2SPF`
additionally binds both `self.d` and `self.f` unsliced. -/
theorem c6_prediction (net : Network) (tsx : List (List ℚ))
    (tsd : List Int) (tsf : List (List ℚ)) :
    ((parameter_prediction net tsx).output = net.final_output ∧
     (parameter_prediction net tsx).givens = [Given.gx tsx, Given.gIsTrain 0] ∧
     (parameter_prediction net tsx).updates = [] ∧
     (∀ lr mom g st,
        applyUpdates lr mom g (parameter_prediction net tsx).updates st = st)) ∧
    ((parameter_prediction_S2S net tsx tsd).output = net.final_output ∧
     (parameter_prediction_S2S net tsx tsd).givens =
       [Given.gx tsx, Given.gd (tsd.take tsx.length), Given.gIsTrain 0] ∧
     (parameter_prediction_S2S net tsx tsd).updates = []) ∧
    ((parameter_prediction_S2SPF net tsx tsd tsf).output = net.final_output ∧
     (parameter_prediction_S2SPF net tsx tsd tsf).givens =
       [Given.gx tsx, Given.gd tsd, Given.gf tsf, Given.gIsTrain 0] ∧
     (parameter_prediction_S2SPF net tsx tsd tsf).updates = []) := by
  refine ⟨⟨rfl, ?_, rfl, fun lr mom g st => applyUpdates_nil lr mom g st⟩,
          ⟨rfl, ?_, rfl⟩, ⟨rfl, ?_, rfl⟩⟩
  · simp [parameter_prediction, List.take_length]
  · simp [parameter_prediction_S2S, List.take_length]
  · simp [parameter_prediction_S2SPF, List.take_length]

/-- C10: the constructor fails with an `AssertionError` exactly when
`len(hidden_layer_size) != len(hidden_layer_type)`; under equal lengths the
assert branch is unreachable (no other failure raises `AssertionError`),
and a successful construction builds exactly `len(hidden_layer_type)`
hidden layers. -/
theorem c10_assert (cfg : Config) :
    (cfg.hidden_layer_size.length ≠ cfg.hidden_layer_type.length →
      construct cfg = .error PyErr.assertionError) ∧
    (cfg.hidden_layer_size.length = cfg.hidden_layer_type.length →
      construct cfg ≠ .error PyErr.assertionError ∧
      ∀ net, construct cfg = .ok net →
        net.rnn_layers.length = cfg.hidden_layer_type.length) := by
  constructor
  · intro hne
    unfold construct
    rw [if_pos hne]
  · intro heq
    refine ⟨?_, fun net hok => construct_length hok⟩
    intro hcontra
    unfold construct at hcontra
    rw [if_neg (by omega)] at hcontra
    cases hb : buildAll cfg initBuild (List.range cfg.hidden_layer_size.length) with
    | error e =>
      rw [hb] at hcontra
      injection hcontra with h2
      subst h2
      rcases buildAll_error _ _ hb with h | h | h <;> exact PyErr.noConfusion h
    | ok st =>
      rw [hb] at hcontra
      rcases finalStage_error hcontra with h | h <;> exact PyErr.noConfusion h

/-- Witness for C10: the assert fires on `cfgBadLen` and is unreachable on
`cfgA`. -/
theorem c10_assert_witness :
    construct cfgBadLen = .error PyErr.assertionError ∧
    construct cfgA ≠ .error PyErr.assertionError ∧
    netA.rnn_layers.length = cfgA.hidden_layer_type.length := by
  refine ⟨(c10_assert cfgBadLen).1 (by decide), ?_, ?_⟩
  · exact ((c10_assert cfgA).2 (by decide)).1
  · exact ((c10_assert cfgA).2 (by decide)).2 netA (by decide)

/-- C2 counterexample: in `cfgEncMid` the layer preceding layer 1 is the
encoder variant `LSTME` (not a bidirectional variant), so the claim's rule
predicts input width `hidden_layer_size[0] = 4`, but the constructor
declares width `6 = 4 + (MLU_div[1] - MLU_div[0])`. -/
theorem c2_counterexample :
    construct cfgEncMid = .ok netEncMid ∧
    (netEncMid.rnn_layers.getD 1 default).inputSize = 6 ∧
    cfgEncMid.hidden_layer_size.getD 0 0 = 4 ∧
    cfgEncMid.hidden_layer_type.getD 0 "" = "LSTME" ∧
    "LSTME" ∉ BLSTM_variants ∧
    (netEncMid.rnn_layers.getD 1 default).inputSize ≠
      (cfgEncMid.hidden_layer_size.getD 0 0 : Int) := by
  decide

/-- C2 (amended): layer `i` is wired to the previous layer's output
(`x` for layer 0) with declared width `hidden_layer_size[i-1]` (`n_in` for
layer 0), doubled when layer `i-1` is a bidirectional variant — except
when the tag at Python index `i-1` is an encoder variant, in which case the
input becomes the concatenation of the seq2seq-encoded segment with frame
features and the width is additionally increased by
`MLU_div[encoder_count+1] - MLU_div[encoder_count]` (`ed_type = "HED"`) or
by 4 (`ed_type = "VED"`); the final layer (when separately constructed) is
wired to the last hidden layer's output with the same doubling rule. -/
theorem c2_wiring_and_widths :
    (∀ cfg net, construct cfg = .ok net →
      ∀ i, i < cfg.hidden_layer_size.length →
        prevTag cfg i ∉ Encoder_variants →
        (net.rnn_layers.getD i default).input = base_layer_input i ∧
        (net.rnn_layers.getD i default).inputSize = base_input_size cfg i) ∧
    (∀ cfg st i w, prevTag cfg i ∈ Encoder_variants → cfg.ed_type = "HED" →
        wireInput cfg st i = .ok w →
        w.input_size = base_input_size cfg i +
          ((cfg.MLU_div_lengths.getD (st.encoderCount + 1) 0 : Int) -
            (cfg.MLU_div_lengths.getD st.encoderCount 0 : Int)) ∧
        ∃ dur feat, w.layer_input =
          SymExpr.concat (SymExpr.encode (base_layer_input i) dur) feat) ∧
    (∀ cfg st i w, prevTag cfg i ∈ Encoder_variants → cfg.ed_type = "VED" →
        wireInput cfg st i = .ok w →
        w.input_size = base_input_size cfg i + 4 ∧
        w.layer_input =
          SymExpr.concat (SymExpr.encode (base_layer_input i) SymExpr.d) SymExpr.f) ∧
    (∀ cfg net, construct cfg = .ok net →
        cfg.hidden_layer_type.getLastD "" ∉ Decoder_variants →
        net.finalSeparate = true ∧
        net.final_layer.input = SymExpr.layerOut (net.rnn_layers.length - 1) ∧
        net.final_layer.inputSize =
          (if cfg.hidden_layer_type.getLastD "" ∈ BLSTM_variants
            then 2 * (cfg.hidden_layer_size.getLastD 0 : Int)
            else (cfg.hidden_layer_size.getLastD 0 : Int))) := by
  refine ⟨?_, ?_, ?_, ?_⟩
  · intro cfg net hok i hi henc
    obtain ⟨st1, w, cls, -, -, hw, -, hlayer⟩ := construct_layer hok hi
    rw [wireInput_not_enc henc] at hw
    injection hw with hw
    rw [hlayer, ← hw]
    exact ⟨rfl, rfl⟩
  · intro cfg st i w henc hed hw
    obtain ⟨-, -, rfl⟩ := wireInput_hed henc hed hw
    exact ⟨rfl, _, _, rfl⟩
  · intro cfg st i w henc hed hw
    obtain ⟨-, rfl⟩ := wireInput_ved henc hed hw
    exact ⟨rfl, rfl⟩
  · intro cfg net hok hdec
    obtain ⟨hlen, st, hb, hf⟩ := construct_ok_elim hok
    obtain ⟨ls, lt, hS, hT, hlayers, -, -, -, -, hcases⟩ := finalStage_ok_elim hf
    have hTD : cfg.hidden_layer_type.getLastD "" = lt := by
      rw [List.getLastD_eq_getLast?, hT]
      rfl
    have hSD : cfg.hidden_layer_size.getLastD 0 = ls := by
      rw [List.getLastD_eq_getLast?, hS]
      rfl
    rcases hcases with ⟨hmem, -⟩ | ⟨-, hsep, -, hin, hsz, -⟩
    · exact absurd hmem (hTD ▸ hdec)
    · rw [hTD, hSD, hlayers]
      exact ⟨hsep, hin, hsz⟩

/-- Witness for C2 (amended) on `cfgA` (plain wiring of layer 1 and of the
final layer) and on the encoder step of `cfgEncMid`. -/
theorem c2_wiring_and_widths_witness :
    construct cfgA = .ok netA ∧
    ((netA.rnn_layers.getD 1 default).input = base_layer_input 1 ∧
     (netA.rnn_layers.getD 1 default).inputSize = base_input_size cfgA 1) ∧
    (netA.finalSeparate = true ∧
     netA.final_layer.input = SymExpr.layerOut (netA.rnn_layers.length - 1) ∧
     netA.final_layer.inputSize =
       (if cfgA.hidden_layer_type.getLastD "" ∈ BLSTM_variants
         then 2 * (cfgA.hidden_layer_size.getLastD 0 : Int)
         else (cfgA.hidden_layer_size.getLastD 0 : Int))) := by
  have h : construct cfgA = .ok netA := by decide
  exact ⟨h,
    c2_wiring_and_widths.1 cfgA netA h 1 (by decide) (by decide),
    c2_wiring_and_widths.2.2.2 cfgA netA h (by decide)⟩

/-- C3: when the preceding tag is an encoder variant and `ed_type = "HED"`,
the loop iteration computes `seg_len = layer_input.size // input_size`,
slices the duration vector at `[prev_seg_end : prev_seg_end + seg_len]`,
encodes that segment with `DistributedSequenceEncoder`, concatenates the
frame-feature columns `MLU_div[encoder_count] : MLU_div[encoder_count+1]`
restricted to the first `sum(slice)` rows, widens the input size by the
column count, advances `prev_seg_end` by `seg_len` and increments the
encoder counter; iterations whose preceding tag is not an encoder variant
leave `prev_seg_end` and `encoder_count` untouched, so successive encoders
consume consecutive duration slices and consecutive `MLU_div` column
ranges. -/
theorem c3_hed_encoder_step :
    (∀ cfg st i st', prevTag cfg i ∈ Encoder_variants → cfg.ed_type = "HED" →
      buildStep cfg st i = .ok st' →
      ∃ L, st'.layers = st.layers ++ [L] ∧
        L.input = SymExpr.concat
          (SymExpr.encode (base_layer_input i)
            (SymExpr.sliceVec SymExpr.d st.prevSegEnd
              (SymExpr.addE st.prevSegEnd
                (SymExpr.sizeDiv (base_layer_input i) (base_input_size cfg i)))))
          (SymExpr.sliceMat SymExpr.f
            (SymExpr.sumE (SymExpr.sliceVec SymExpr.d st.prevSegEnd
              (SymExpr.addE st.prevSegEnd
                (SymExpr.sizeDiv (base_layer_input i) (base_input_size cfg i)))))
            (cfg.MLU_div_lengths.getD st.encoderCount 0)
            (cfg.MLU_div_lengths.getD (st.encoderCount + 1) 0)) ∧
        L.inputSize = base_input_size cfg i +
          ((cfg.MLU_div_lengths.getD (st.encoderCount + 1) 0 : Int) -
            (cfg.MLU_div_lengths.getD st.encoderCount 0 : Int)) ∧
        st'.prevSegEnd = SymExpr.addE st.prevSegEnd
          (SymExpr.sizeDiv (base_layer_input i) (base_input_size cfg i)) ∧
        st'.encoderCount = st.encoderCount + 1) ∧
    (∀ cfg st i st', prevTag cfg i ∉ Encoder_variants →
      buildStep cfg st i = .ok st' →
      st'.prevSegEnd = st.prevSegEnd ∧ st'.encoderCount = st.encoderCount) := by
  constructor
  · intro cfg st i st' henc hed hstep
    obtain ⟨w, cls, hw, -, rfl⟩ := buildStep_ok_iff.mp hstep
    obtain ⟨-, -, rfl⟩ := wireInput_hed henc hed hw
    exact ⟨_, rfl, rfl, rfl, rfl, rfl⟩
  · intro cfg st i st' henc hstep
    obtain ⟨w, cls, hw, -, rfl⟩ := buildStep_ok_iff.mp hstep
    rw [wireInput_not_enc henc] at hw
    injection hw with hw
    rw [← hw]
    exact ⟨rfl, rfl⟩

/-- Witness for C3 at the encoder iteration `i = 1` of `cfgEncMid` (state
after iteration 0) and at the plain iteration 0. -/
theorem c3_hed_encoder_step_witness :
    (∃ L, ((buildAll cfgEncMid initBuild (List.range 1)).toOption.getD default |>
        (fun st1 => buildStep cfgEncMid st1 1 = .ok
          ⟨st1.layers ++ [L], SymExpr.addE st1.prevSegEnd
            (SymExpr.sizeDiv (base_layer_input 1) (base_input_size cfgEncMid 1)),
           st1.encoderCount + 1⟩)) ∧
      L.inputSize = base_input_size cfgEncMid 1 + 2) ∧
    (∀ st', buildStep cfgEncMid initBuild 0 = .ok st' →
      st'.prevSegEnd = initBuild.prevSegEnd ∧
      st'.encoderCount = initBuild.encoderCount) := by
  constructor
  · refine ⟨⟨LayerClass.GeneralLayer "tanh",
      SymExpr.concat
        (SymExpr.encode (base_layer_input 1)
          (SymExpr.sliceVec SymExpr.d (SymExpr.lit 0)
            (SymExpr.addE (SymExpr.lit 0)
              (SymExpr.sizeDiv (base_layer_input 1) (base_input_size cfgEncMid 1)))))
        (SymExpr.sliceMat SymExpr.f
          (SymExpr.sumE (SymExpr.sliceVec SymExpr.d (SymExpr.lit 0)
            (SymExpr.addE (SymExpr.lit 0)
              (SymExpr.sizeDiv (base_layer_input 1) (base_input_size cfgEncMid 1)))))
          0 2),
      6, 5⟩, ?_, by decide⟩
    decide
  · intro st' hstep
    exact c3_hed_encoder_step.2 cfgEncMid initBuild 0 st' (by decide) hstep

/-- C8: at loop iteration `i = 0` the encoder check reads
`hidden_layer_type[-1]`, the last tag; when that last tag is an encoder
variant (under `ed_type = "HED"`), the seq2seq encoding and frame-feature
concatenation are applied to the raw network input `x` before the first
layer, so layer 0's input is the concatenation rather than `x` itself. -/
theorem c8_negative_index (cfg : Config) (net : Network)
    (hok : construct cfg = .ok net)
    (hne : cfg.hidden_layer_type ≠ [])
    (henc : cfg.hidden_layer_type.getLastD "" ∈ Encoder_variants)
    (hed : cfg.ed_type = "HED") :
    prevTag cfg 0 = cfg.hidden_layer_type.getLastD "" ∧
    (net.rnn_layers.getD 0 default).input =
      SymExpr.concat
        (SymExpr.encode SymExpr.x
          (SymExpr.sliceVec SymExpr.d (SymExpr.lit 0)
            (SymExpr.addE (SymExpr.lit 0)
              (SymExpr.sizeDiv SymExpr.x (cfg.n_in : Int)))))
        (SymExpr.sliceMat SymExpr.f
          (SymExpr.sumE (SymExpr.sliceVec SymExpr.d (SymExpr.lit 0)
            (SymExpr.addE (SymExpr.lit 0)
              (SymExpr.sizeDiv SymExpr.x (cfg.n_in : Int)))))
          (cfg.MLU_div_lengths.getD 0 0) (cfg.MLU_div_lengths.getD 1 0)) ∧
    (net.rnn_layers.getD 0 default).input ≠ SymExpr.x := by
  obtain ⟨hlen, -⟩ := construct_ok_elim hok
  have hpt : prevTag cfg 0 = cfg.hidden_layer_type.getLastD "" := by
    simp [prevTag]
  have h0 : 0 < cfg.hidden_layer_size.length := by
    have : cfg.hidden_layer_type.length ≠ 0 := by
      simpa [List.length_eq_zero] using hne
    omega
  obtain ⟨st1, w, cls, h1, -, hw, -, hlayer⟩ := construct_layer hok h0
  have hst1 : st1 = initBuild := by
    simp only [List.range_zero, buildAll] at h1
    injection h1 with h1
    exact h1.symm
  subst hst1
  obtain ⟨-, -, rfl⟩ := wireInput_hed (hpt ▸ henc) hed hw
  rw [hlayer]
  refine ⟨hpt, rfl, ?_⟩
  intro hcon
  exact SymExpr.noConfusion hcon

/-- Witness for C8 on `cfgEncLast` (last tag `LSTME`). -/
theorem c8_negative_index_witness :
    construct cfgEncLast = .ok netEncLast ∧
    prevTag cfgEncLast 0 = cfgEncLast.hidden_layer_type.getLastD "" ∧
    (netEncLast.rnn_layers.getD 0 default).input ≠ SymExpr.x := by
  have h : construct cfgEncLast = .ok netEncLast := by decide
  have hmain := c8_negative_index cfgEncLast netEncLast h (by decide) (by decide) rfl
  exact ⟨h, hmain.1, hmain.2.2⟩

/-- C7: an unsupported hidden-layer tag makes the constructor terminate via
`sys.exit(1)` (modelled as the dedicated `PyErr.sysExit 1` result, distinct
from every raised-exception result) as soon as the loop reaches it with its
input successfully wired; an unsupported `output_type` (when the last tag
is not a decoder variant) likewise terminates via `sys.exit(1)` after the
loop; and an unsupported optimizer name makes `build_finetune_functions`
terminate via `sys.exit(1)` once the dispatch is reached, i.e. when the
cost expression was assigned (line 245 would raise AttributeError
otherwise) and `layer_index` does not exceed the layer count (the freeze
loop at lines 261-263 would raise IndexError otherwise). -/
theorem c7_unsupported_exits :
    (∀ cfg st i w,
      cfg.hidden_layer_size.length = cfg.hidden_layer_type.length →
      i < cfg.hidden_layer_size.length →
      buildAll cfg initBuild (List.range i) = .ok st →
      wireInput cfg st i = .ok w →
      cfg.hidden_layer_type.getD i "" ∉ supported_hidden_tags →
      construct cfg = .error (PyErr.sysExit 1)) ∧
    (∀ cfg st,
      cfg.hidden_layer_size.length = cfg.hidden_layer_type.length →
      cfg.hidden_layer_type ≠ [] →
      buildAll cfg initBuild (List.range cfg.hidden_layer_size.length) = .ok st →
      cfg.hidden_layer_type.getLastD "" ∉ Decoder_variants →
      strLower cfg.output_type ≠ "linear" →
      strLower cfg.output_type ≠ "recurrent" →
      strUpper cfg.output_type ∉ list_of_activations →
      construct cfg = .error (PyErr.sysExit 1)) ∧
    (∀ npar net layer_index,
      net.finetune_cost ≠ none →
      layer_index ≤ net.rnn_layers.length →
      net.optimizer ≠ "sgd" → net.optimizer ≠ "adam" → net.optimizer ≠ "rprop" →
      build_finetune_functions npar net layer_index = .error (PyErr.sysExit 1)) := by
  refine ⟨?_, ?_, ?_⟩
  · intro cfg st i w hlen hi hpre hw hbad
    have hstep : buildStep cfg st i = .error (PyErr.sysExit 1) := by
      unfold buildStep
      rw [hw, layerClassOf_unsupported hbad]
    unfold construct
    rw [if_neg (by omega), buildAll_range_error_at hi hpre hstep]
  · intro cfg st hlen hne hball hdec h1 h2 h3
    obtain ⟨lt, hT⟩ :=
      Option.isSome_iff_exists.mp (List.getLast?_isSome.mpr hne)
    have hsne : cfg.hidden_layer_size ≠ [] := by
      intro hcon
      rw [hcon] at hlen
      exact hne (List.length_eq_zero.mp hlen.symm)
    obtain ⟨ls, hS⟩ :=
      Option.isSome_iff_exists.mp (List.getLast?_isSome.mpr hsne)
    have hTD : cfg.hidden_layer_type.getLastD "" = lt := by
      rw [List.getLastD_eq_getLast?, hT]
      rfl
    unfold construct
    rw [if_neg (by omega), hball]
    unfold finalStage
    rw [hS, hT]
    simp only
    rw [if_neg (hTD ▸ hdec), if_neg h1, if_neg h2, if_neg h3]
  · intro npar net layer_index hcost hidx h1 h2 h3
    unfold build_finetune_functions
    rw [if_neg hcost, if_neg (by omega), if_neg h1, if_neg h2, if_neg h3]

/-- Witness for C7: bad layer tag (`cfgBadTag`), bad output type
(`cfgBadOutput`), bad optimizer name (`netBadOptimizer`). -/
theorem c7_unsupported_exits_witness :
    construct cfgBadTag = .error (PyErr.sysExit 1) ∧
    construct cfgBadOutput = .error (PyErr.sysExit 1) ∧
    build_finetune_functions nparOne netBadOptimizer 0 =
      .error (PyErr.sysExit 1) := by
  refine ⟨?_, ?_, ?_⟩
  · exact c7_unsupported_exits.1 cfgBadTag initBuild 0
      ⟨SymExpr.x, (3 : Int), SymExpr.lit 0, 0⟩ (by decide) (by decide) (by decide)
      (by decide) (by decide)
  · exact c7_unsupported_exits.2.1 cfgBadOutput stBadOutput (by decide) (by decide)
      (by decide) (by decide) (by decide) (by decide) (by decide)
  · exact c7_unsupported_exits.2.2 nparOne netBadOptimizer 0 (by decide) (by decide)
      (by decide) (by decide) (by decide)

/-- C4: with `optimizer = "sgd"` and no frozen layers, the training
function's update dictionary assigns every parameter index the velocity
`v' = mom * v - lr * gparam` and the weight `p' = p + v'` (right-hand sides
evaluated in the pre-step state, as `theano.function` does); the velocity
accumulators are initialised to zeros at construction time; the validation
function is compiled with an empty update dictionary, so applying it
leaves every parameter and velocity unchanged. -/
theorem c4_sgd_updates (npar : Layer → Nat) (net : Network)
    (fns : UpdatesSpec × UpdatesSpec)
    (hopt : net.optimizer = "sgd")
    (hb : build_finetune_functions npar net 0 = .ok fns) :
    fns.1 = UpdatesSpec.explicit (sgdUpdates 0 (numParams npar net)) ∧
    (∀ i, i < numParams npar net → (init_updates (numParams npar net)).getD i 1 = 0) ∧
    (∀ lr mom g st i, i < numParams npar net →
      (applyUpdates lr mom g (sgdUpdates 0 (numParams npar net)) st).vels i =
        mom * st.vels i - lr * g i ∧
      (applyUpdates lr mom g (sgdUpdates 0 (numParams npar net)) st).params i =
        st.params i +
          (applyUpdates lr mom g (sgdUpdates 0 (numParams npar net)) st).vels i) ∧
    fns.2 = UpdatesSpec.explicit [] ∧
    (∀ lr mom g st, applyUpdates lr mom g [] st = st) := by
  unfold build_finetune_functions at hb
  by_cases hcost : net.finetune_cost = none
  · rw [if_pos hcost] at hb; cases hb
  rw [if_neg hcost, if_neg (by omega), if_pos hopt] at hb
  injection hb with hb
  subst hb
  refine ⟨rfl, ?_, ?_, rfl, fun lr mom g st => applyUpdates_nil lr mom g st⟩
  · intro i hi
    exact init_updates_getD hi
  · intro lr mom g st i hi
    constructor
    · exact applyUpdates_sgd_vel lr mom g st 0 _ i hi
    · rw [applyUpdates_sgd_vel lr mom g st 0 _ i hi]
      exact applyUpdates_sgd_param_active lr mom g st 0 _ i hi (Nat.zero_le i)

/-- Witness for C4 over `netA` with one parameter per layer. -/
theorem c4_sgd_updates_witness :
    netA.optimizer = "sgd" ∧
    build_finetune_functions nparOne netA 0 = .ok fnsA0 ∧
    fnsA0.1 = UpdatesSpec.explicit (sgdUpdates 0 (numParams nparOne netA)) ∧
    fnsA0.2 = UpdatesSpec.explicit [] := by
  have h : build_finetune_functions nparOne netA 0 = .ok fnsA0 := by decide
  have hm := c4_sgd_updates nparOne netA fnsA0 (by decide) h
  exact ⟨by decide, h, hm.1, hm.2.2.2.1⟩

/-- C9: with `optimizer = "sgd"` and `layer_index > 0`, every parameter of
the first `layer_index` layers (exactly the flat indices below
`freeze_params`, the summed parameter counts of those layers) keeps its
value unchanged by a training step while its velocity accumulator is still
overwritten with `mom * v - lr * gparam`; every later parameter receives
both the velocity and the weight update. -/
theorem c9_frozen_layers (npar : Layer → Nat) (net : Network)
    (layer_index : Nat) (fns : UpdatesSpec × UpdatesSpec)
    (hopt : net.optimizer = "sgd")
    (_hpos : 0 < layer_index)
    (hb : build_finetune_functions npar net layer_index = .ok fns) :
    fns.1 = UpdatesSpec.explicit
      (sgdUpdates (freeze_params npar net layer_index) (numParams npar net)) ∧
    freeze_params npar net layer_index =
      ((net.rnn_layers.take layer_index).map npar).sum ∧
    freeze_params npar net layer_index ≤ numParams npar net ∧
    (∀ lr mom g st i, i < freeze_params npar net layer_index →
      (applyUpdates lr mom g
        (sgdUpdates (freeze_params npar net layer_index) (numParams npar net))
        st).params i = st.params i ∧
      (applyUpdates lr mom g
        (sgdUpdates (freeze_params npar net layer_index) (numParams npar net))
        st).vels i = mom * st.vels i - lr * g i) ∧
    (∀ lr mom g st i, freeze_params npar net layer_index ≤ i →
      i < numParams npar net →
      (applyUpdates lr mom g
        (sgdUpdates (freeze_params npar net layer_index) (numParams npar net))
        st).params i = st.params i + (mom * st.vels i - lr * g i) ∧
      (applyUpdates lr mom g
        (sgdUpdates (freeze_params npar net layer_index) (numParams npar net))
        st).vels i = mom * st.vels i - lr * g i) := by
  unfold build_finetune_functions at hb
  by_cases hcost : net.finetune_cost = none
  · rw [if_pos hcost] at hb; cases hb
  rw [if_neg hcost] at hb
  by_cases hidx : net.rnn_layers.length < layer_index
  · rw [if_pos hidx] at hb; cases hb
  rw [if_neg hidx, if_pos hopt] at hb
  injection hb with hb
  subst hb
  refine ⟨rfl, rfl, freeze_le_numParams npar net layer_index, ?_, ?_⟩
  · intro lr mom g st i hi
    have hiN : i < numParams npar net :=
      Nat.lt_of_lt_of_le hi (freeze_le_numParams npar net layer_index)
    exact ⟨applyUpdates_sgd_param_frozen lr mom g st _ _ i hi,
           applyUpdates_sgd_vel lr mom g st _ _ i hiN⟩
  · intro lr mom g st i hf hiN
    exact ⟨applyUpdates_sgd_param_active lr mom g st _ _ i hiN hf,
           applyUpdates_sgd_vel lr mom g st _ _ i hiN⟩

/-- Witness for C9 over `netA` with one parameter per layer and
`layer_index = 1`. -/
theorem c9_frozen_layers_witness :
    netA.optimizer = "sgd" ∧
    0 < 1 ∧
    build_finetune_functions nparOne netA 1 = .ok fnsA1 ∧
    fnsA1.1 = UpdatesSpec.explicit
      (sgdUpdates (freeze_params nparOne netA 1) (numParams nparOne netA)) ∧
    freeze_params nparOne netA 1 = 1 ∧
    numParams nparOne netA = 3 := by
  have h : build_finetune_functions nparOne netA 1 = .ok fnsA1 := by decide
  have hm := c9_frozen_layers nparOne netA 1 fnsA1 (by decide) (by decide) h
  exact ⟨by decide, by decide, h, hm.1, by decide, by decide⟩

end HedRnn
